import Mathlib

/-!
Verification of the brbrbr AI-text-detection engine and its React frontend.

The repository ships the frontend (frontend/src/App.jsx) and documentation;
the Rust analyzer (src/main.rs, src/analyzer.rs) is described by the README
and the design documents but its code is not in the tree, so the engine is
modelled here from those documents.  The frontend handlers are translated
directly from App.jsx.  Text is modelled as a list of characters, scores and
percentages as rationals.
-/

namespace Brbrbr

/-- Modelled from the spec: the three-way verdict enum of AnalysisResult. -/
inductive Verdict where
  | HumanWritten
  | AiGenerated
  | Uncertain
deriving DecidableEq

/-- Modelled from the spec: AnalysisResult with the two percentages and the
verdict, as returned by the missing Rust analyzer. -/
structure AnalysisResult where
  human_percentage : ℚ
  ai_percentage : ℚ
  verdict : Verdict
deriving DecidableEq

/-- Modelled from the spec: rounding to one decimal place, used for both
percentages. -/
def round1 (x : ℚ) : ℚ := (⌊10 * x + 1 / 2⌋ : ℚ) / 10

/-- Splitter worker: cut a list at the elements satisfying `p`, dropping the
separators and the empty pieces; `acc` holds the current piece reversed. -/
def chunksAux {α : Type} (p : α → Bool) : List α → List α → List (List α)
  | [], acc => if acc.isEmpty then [] else [acc.reverse]
  | a :: rest, acc =>
    if p a then
      if acc.isEmpty then chunksAux p rest []
      else acc.reverse :: chunksAux p rest []
    else
      chunksAux p rest (a :: acc)

/-- Cut a list at the elements satisfying `p`, dropping separators and empty
pieces. -/
def chunks {α : Type} (p : α → Bool) (l : List α) : List (List α) :=
  chunksAux p l []

/-- Cut a list at the elements satisfying `p`, keeping empty pieces (used for
line splitting, where blank lines are significant). -/
def splitAll {α : Type} (p : α → Bool) : List α → List (List α)
  | [] => [[]]
  | a :: rest =>
    if p a then [] :: splitAll p rest
    else
      match splitAll p rest with
      | [] => [[a]]
      | h :: t => (a :: h) :: t

/-- Modelled from the spec: word tokenization of the missing tokenizer —
case-fold, then split on non-alphanumeric boundaries, dropping empties. -/
def lowerWords (t : List Char) : List (List Char) :=
  chunks (fun c => !c.isAlphanum) (t.map Char.toLower)

/-- Sentence terminator characters. -/
def isSentenceEnd (c : Char) : Bool := c = '.' || c = '!' || c = '?'

/-- Drop leading and trailing whitespace of a character list. -/
def trimChars (t : List Char) : List Char :=
  ((t.dropWhile Char.isWhitespace).reverse.dropWhile Char.isWhitespace).reverse

/-- Modelled from the spec: sentence segmentation of the missing tokenizer —
split on sentence terminators, trim the pieces, drop the empty ones. -/
def sentences (t : List Char) : List (List Char) :=
  ((chunks isSentenceEnd t).map trimChars).filter (fun s => !s.isEmpty)

/-- A line consisting only of whitespace (or nothing). -/
def isBlankLine (l : List Char) : Bool := l.all Char.isWhitespace

/-- Modelled from the spec: paragraph segmentation of the missing tokenizer —
maximal runs of non-blank lines, separated by one or more blank lines. -/
def paragraphs (t : List Char) : List (List (List Char)) :=
  chunks isBlankLine (splitAll (fun c => c = '\n') t)

/-- Word count of each sentence, in order. -/
def sentenceWordCounts (t : List Char) : List ℕ :=
  (sentences t).map (fun s => (lowerWords s).length)

/-- Population variance of a list of naturals, as a rational. -/
def natVariance (xs : List ℕ) : ℚ :=
  (xs.map (fun x => ((x : ℚ) - (xs.map (fun y => (y : ℚ))).sum / (xs.length : ℚ)) ^ 2)).sum
    / (xs.length : ℚ)

/-- Modelled from the spec: the sentence-length-uniformity signal of the
missing analyzer — fewer than two sentences is neutral 1/2; variance of
words-per-sentence below the threshold 200 maps to the high band 8/10,
otherwise the low band 2/10. -/
def uniformityScore (t : List Char) : ℚ :=
  if (sentenceWordCounts t).length < 2 then 1 / 2
  else if natVariance (sentenceWordCounts t) < 200 then 8 / 10
  else 2 / 10

/-- Unique-word ratio of the text. -/
def diversityRatio (t : List Char) : ℚ :=
  ((lowerWords t).dedup.length : ℚ) / ((lowerWords t).length : ℚ)

/-- Modelled from the spec: the vocabulary-diversity signal of the missing
analyzer — no words is neutral 1/2; unique-word ratio at least 7/10 maps to
2/10, at most 5/10 maps to 8/10, linear in between. -/
def diversityScore (t : List Char) : ℚ :=
  if (lowerWords t).length = 0 then 1 / 2
  else if 7 / 10 ≤ diversityRatio t then 2 / 10
  else if diversityRatio t ≤ 5 / 10 then 8 / 10
  else 8 / 10 - 3 * (diversityRatio t - 5 / 10)

/-- Modelled from the spec: the fixed catalogue of AI-associated stock
phrases scanned by the missing analyzer. -/
def phraseCatalogue : List (List Char) :=
  [ "as an ai".data
  , "i cannot".data
  , "it".data ++ [Char.ofNat 39] ++ "s important to note".data
  , "furthermore".data
  , "in conclusion".data
  , "delve into".data
  , "leverage".data
  , "utilize".data
  , "facilitate".data
  , "multifaceted".data
  , "paradigm shift".data
  , "cutting-edge".data ]

/-- Whether `pat` is an initial segment of `s`. -/
def startsWith : List Char → List Char → Bool
  | _, [] => true
  | [], _ :: _ => false
  | a :: s, b :: pat => a = b && startsWith s pat

/-- Whether `pat` occurs contiguously inside `s`. -/
def containsSeq : List Char → List Char → Bool
  | [], pat => pat.isEmpty
  | a :: s, pat => startsWith (a :: s) pat || containsSeq s pat

/-- Modelled from the spec: number of distinct catalogue phrases occurring
(case-insensitively) in the text — distinct catalogue entries, not raw
occurrences. -/
def phraseMatchCount (t : List Char) : ℕ :=
  (phraseCatalogue.filter (fun ph => containsSeq (t.map Char.toLower) ph)).length

/-- Modelled from the spec: the AI-common-phrases signal of the missing
analyzer — the step function over the distinct-match count, with a strictly
positive baseline for zero matches. -/
def phrasesScore (t : List Char) : ℚ :=
  if 3 ≤ phraseMatchCount t then 85 / 100
  else if phraseMatchCount t = 2 then 70 / 100
  else if phraseMatchCount t = 1 then 55 / 100
  else 30 / 100

/-- Occurrences of character `c` in `t`. -/
def countChar (c : Char) (t : List Char) : ℕ :=
  (t.filter (fun d => d = c)).length

/-- Exclamation marks per character of the text. -/
def exclDensity (t : List Char) : ℚ := (countChar '!' t : ℚ) / (t.length : ℚ)

/-- Commas per character of the text. -/
def commaDensity (t : List Char) : ℚ := (countChar ',' t : ℚ) / (t.length : ℚ)

/-- Modelled from the spec: the punctuation signal of the missing analyzer —
mean of two clamped indicators, one for low exclamation density, one for
comma density inside the formal 2 to 4 percent band; empty text is
neutral 1/2. -/
def punctuationScore (t : List Char) : ℚ :=
  if t.length = 0 then 1 / 2
  else
    ((if exclDensity t ≤ 1 / 100 then (7 : ℚ) / 10 else 3 / 10)
      + (if 2 / 100 ≤ commaDensity t ∧ commaDensity t ≤ 4 / 100 then (7 : ℚ) / 10 else 3 / 10))
      / 2

/-- Number of words in a paragraph (a run of lines). -/
def paragraphWordCount (par : List (List Char)) : ℕ :=
  (par.map (fun line => (lowerWords line).length)).sum

/-- Mean number of words per paragraph. -/
def meanParagraphWords (t : List Char) : ℚ :=
  ((((paragraphs t).map paragraphWordCount).sum : ℕ) : ℚ) / ((paragraphs t).length : ℚ)

/-- Modelled from the spec: the text-structure signal of the missing
analyzer — no paragraph is neutral 1/2; mean words-per-paragraph inside the
well-formed 50 to 150 band maps to 3/4, otherwise 35/100. -/
def structureScore (t : List Char) : ℚ :=
  if (paragraphs t).length = 0 then 1 / 2
  else if 50 ≤ meanParagraphWords t ∧ meanParagraphWords t ≤ 150 then 3 / 4
  else 35 / 100

/-- Weight of the uniformity signal. -/
def wUniformity : ℚ := 25 / 100

/-- Weight of the diversity signal. -/
def wDiversity : ℚ := 20 / 100

/-- Weight of the phrases signal. -/
def wPhrases : ℚ := 30 / 100

/-- Weight of the punctuation signal. -/
def wPunctuation : ℚ := 15 / 100

/-- Weight of the structure signal. -/
def wStructure : ℚ := 10 / 100

/-- Modelled from the spec: the fixed-weight score combiner of the missing
analyzer. -/
def combineScores (u d p q s : ℚ) : ℚ :=
  wUniformity * u + wDiversity * d + wPhrases * p + wPunctuation * q + wStructure * s

/-- Combined heuristic AI score of a text. -/
def aiScore (t : List Char) : ℚ :=
  combineScores (uniformityScore t) (diversityScore t) (phrasesScore t)
    (punctuationScore t) (structureScore t)

/-- Modelled from the spec: the verdict mapping — at least 60 is AiGenerated,
at most 40 is HumanWritten, strictly between is Uncertain. -/
def verdictOf (aiPct : ℚ) : Verdict :=
  if 60 ≤ aiPct then Verdict.AiGenerated
  else if aiPct ≤ 40 then Verdict.HumanWritten
  else Verdict.Uncertain

/-- Modelled from the spec: build the AnalysisResult from an AI probability
in [0,1] — round the AI percentage to one decimal, derive the human
percentage as the rounded complement, map the verdict. -/
def resultOfProb (p : ℚ) : AnalysisResult :=
  { human_percentage := round1 (100 - round1 (p * 100))
  , ai_percentage := round1 (p * 100)
  , verdict := verdictOf (round1 (p * 100)) }

/-- Modelled from the spec: the full heuristic path of the missing analyzer,
from raw text to AnalysisResult. -/
def heuristicAnalyze (t : List Char) : AnalysisResult :=
  resultOfProb (aiScore t)

/-- Modelled from the spec: the failure modes of the remote classifier call. -/
inductive RemoteFailure where
  | network
  | timeout
  | nonSuccessStatus
  | malformedBody
  | missingCredentials
deriving DecidableEq

/-- Modelled from the spec: the outcome of the single remote classifier
attempt — an AI-class probability on success, or one of the failure modes. -/
inductive RemoteOutcome where
  | success (prob : ℚ)
  | failure (k : RemoteFailure)
deriving DecidableEq

/-- Modelled from the spec: the only error kind the engine surfaces. -/
inductive AnalyzeError where
  | InputTooLarge
deriving DecidableEq

deriving instance DecidableEq for Except

/-- Modelled from the spec: the configured input character bound. -/
def maxInputChars : ℕ := 50000

/-- Modelled from the spec: the engine entry point of the missing analyzer —
reject oversized input, otherwise use the remote probability when the remote
call succeeded and fall back to the heuristic path on any remote failure. -/
def analyze (remote : RemoteOutcome) (t : List Char) : Except AnalyzeError AnalysisResult :=
  if maxInputChars < t.length then Except.error AnalyzeError.InputTooLarge
  else
    match remote with
    | RemoteOutcome.success p => Except.ok (resultOfProb p)
    | RemoteOutcome.failure _ => Except.ok (heuristicAnalyze t)

/-- A pair of calls of the heuristic path on the same text, modelling two
successive requests with the remote classifier unavailable. -/
def analyzeTwice (k : RemoteFailure) (t : List Char) :
    Except AnalyzeError AnalysisResult × Except AnalyzeError AnalysisResult :=
  (analyze (RemoteOutcome.failure k) t, analyze (RemoteOutcome.failure k) t)

/-- Frontend state of App.jsx: the controlled textarea value, the displayed
file name, and the loading flag. -/
structure FrontendState where
  text : List Char
  fileName : List Char
  loading : Bool
deriving DecidableEq

/-- Initial App.jsx state: empty text, no file, not loading. -/
def initialState : FrontendState :=
  { text := [], fileName := [], loading := false }

/-- The maxLength attribute of the textarea in App.jsx. -/
def textareaMaxLength : ℕ := 50000

/-- Typed input: the textarea onChange handler; the DOM maxLength attribute
keeps the value within the bound, modelled as truncation. -/
def handleTextInput (s : FrontendState) (v : List Char) : FrontendState :=
  { s with text := v.take textareaMaxLength }

/-- The FileReader onload handler inside handleFileUpload of App.jsx: the
file content becomes the text state directly, with no length check. -/
def handleFileUploadLoad (s : FrontendState) (name content : List Char) : FrontendState :=
  { s with text := content, fileName := name }

/-- Body of the POST request to the analyze endpoint. -/
structure AnalyzeRequest where
  text : List Char
deriving DecidableEq

/-- handleAnalyze of App.jsx: return without any fetch when the trimmed text
is empty, otherwise issue the request carrying the untrimmed text. -/
def handleAnalyze (s : FrontendState) : Option AnalyzeRequest :=
  if (trimChars s.text).isEmpty then none
  else some { text := s.text }

/-- The disabled condition of the Analyze button in App.jsx. -/
def analyzeButtonDisabled (s : FrontendState) : Bool :=
  (trimChars s.text).isEmpty || s.loading

/-- An uploaded file content one character over the textarea bound. -/
def bigContent : List Char := List.replicate 50001 'a'

/-! ## Helper lemmas -/

/-- Rounding to one decimal fixes any value that already is an integer number
of tenths. -/
theorem round1_intDiv (k : ℤ) : round1 ((k : ℚ) / 10) = (k : ℚ) / 10 := by
  unfold round1
  have h : (10 : ℚ) * ((k : ℚ) / 10) + 1 / 2 = (k : ℚ) + 1 / 2 := by ring
  rw [h, Int.floor_int_add]
  norm_num

/-- For every probability, the two percentages of `resultOfProb` add up to
exactly 100. -/
theorem resultOfProb_sum (p : ℚ) :
    (resultOfProb p).human_percentage + (resultOfProb p).ai_percentage = 100 := by
  show round1 (100 - round1 (p * 100)) + round1 (p * 100) = 100
  have hai : round1 (p * 100) = ((⌊10 * (p * 100) + 1 / 2⌋ : ℤ) : ℚ) / 10 := rfl
  have h1 : (100 : ℚ) - ((⌊10 * (p * 100) + 1 / 2⌋ : ℤ) : ℚ) / 10
      = ((1000 - ⌊10 * (p * 100) + 1 / 2⌋ : ℤ) : ℚ) / 10 := by push_cast; ring
  rw [hai, h1, round1_intDiv]
  push_cast
  ring

/-- Every Ok result of `analyze` comes from `resultOfProb` at some
probability. -/
theorem analyze_ok_shape (remote : RemoteOutcome) (t : List Char)
    (r : AnalysisResult) (h : analyze remote t = Except.ok r) :
    ∃ p, r = resultOfProb p := by
  unfold analyze at h
  by_cases hb : maxInputChars < t.length
  · rw [if_pos hb] at h
    exact absurd h (by simp)
  · rw [if_neg hb] at h
    cases remote with
    | success p =>
      exact ⟨p, (Except.ok.inj h).symm⟩
    | failure k =>
      exact ⟨aiScore t, (Except.ok.inj h).symm⟩

/-- The verdict mapping satisfies the three-band rule. -/
theorem verdictOf_spec (x : ℚ) :
    (60 ≤ x → verdictOf x = Verdict.AiGenerated) ∧
    (x ≤ 40 → verdictOf x = Verdict.HumanWritten) ∧
    (40 < x → x < 60 → verdictOf x = Verdict.Uncertain) := by
  unfold verdictOf
  refine ⟨fun h => by rw [if_pos h], fun h => ?_, fun h1 h2 => ?_⟩
  · rw [if_neg (by linarith), if_pos h]
  · rw [if_neg (by linarith), if_neg (by linarith)]

/-- Evaluation of the heuristic path on the empty text. -/
theorem heuristicAnalyze_nil :
    heuristicAnalyze [] =
      { human_percentage := 56, ai_percentage := 44, verdict := Verdict.Uncertain } := by
  have ha : aiScore [] = 11 / 25 := by
    show combineScores (uniformityScore []) (diversityScore []) (phrasesScore [])
        (punctuationScore []) (structureScore []) = 11 / 25
    have h1 : uniformityScore [] = 1 / 2 := rfl
    have h2 : diversityScore [] = 1 / 2 := rfl
    have h3 : phrasesScore [] = 30 / 100 := rfl
    have h4 : punctuationScore [] = 1 / 2 := rfl
    have h5 : structureScore [] = 1 / 2 := rfl
    rw [h1, h2, h3, h4, h5]
    unfold combineScores wUniformity wDiversity wPhrases wPunctuation wStructure
    norm_num
  show resultOfProb (aiScore []) = _
  rw [ha]
  unfold resultOfProb
  have h44 : round1 (11 / 25 * 100) = 44 := by
    unfold round1
    norm_num
  rw [h44]
  have h56 : round1 ((100 : ℚ) - 44) = 56 := by
    unfold round1
    norm_num
  rw [h56]
  have hv : verdictOf (44 : ℚ) = Verdict.Uncertain := by
    unfold verdictOf
    rw [if_neg (by norm_num), if_neg (by norm_num)]
  rw [hv]

/-! ## Claim theorems -/

/-- C1: for every valid input accepted by analyze, the returned
AnalysisResult satisfies human_percentage + ai_percentage == 100.0 within one
decimal of rounding, on both the remote path and the heuristic path. -/
theorem analyze_percentages_sum (remote : RemoteOutcome) (t : List Char)
    (r : AnalysisResult) (h : analyze remote t = Except.ok r) :
    |r.human_percentage + r.ai_percentage - 100| ≤ 1 / 10 := by
  obtain ⟨p, rfl⟩ := analyze_ok_shape remote t r h
  rw [resultOfProb_sum]
  norm_num

/-- Witness for C1 at the empty text on the heuristic path. -/
theorem analyze_percentages_sum_witness :
    analyze (RemoteOutcome.failure RemoteFailure.network) [] =
      Except.ok { human_percentage := 56, ai_percentage := 44, verdict := Verdict.Uncertain } ∧
    |(56 : ℚ) + 44 - 100| ≤ 1 / 10 := by
  have hok : analyze (RemoteOutcome.failure RemoteFailure.network) [] =
      Except.ok { human_percentage := 56, ai_percentage := 44, verdict := Verdict.Uncertain } := by
    show Except.ok (heuristicAnalyze []) = _
    rw [heuristicAnalyze_nil]
  refine ⟨hok, ?_⟩
  have := analyze_percentages_sum (RemoteOutcome.failure RemoteFailure.network) []
    { human_percentage := 56, ai_percentage := 44, verdict := Verdict.Uncertain } hok
  simpa using this

/-- C2: every AnalysisResult returned by analyze has its verdict determined
by ai_percentage under the fixed convention: at least 60 is AiGenerated, at
most 40 is HumanWritten, strictly between 40 and 60 is Uncertain. -/
theorem analyze_verdict_consistent (remote : RemoteOutcome) (t : List Char)
    (r : AnalysisResult) (h : analyze remote t = Except.ok r) :
    (60 ≤ r.ai_percentage → r.verdict = Verdict.AiGenerated) ∧
    (r.ai_percentage ≤ 40 → r.verdict = Verdict.HumanWritten) ∧
    (40 < r.ai_percentage → r.ai_percentage < 60 → r.verdict = Verdict.Uncertain) := by
  obtain ⟨p, rfl⟩ := analyze_ok_shape remote t r h
  have hv : (resultOfProb p).verdict = verdictOf ((resultOfProb p).ai_percentage) := rfl
  rw [hv]
  exact verdictOf_spec ((resultOfProb p).ai_percentage)

/-- Evaluation of the remote path at probability 9/10. -/
theorem resultOfProb_ninety :
    resultOfProb (9 / 10) =
      { human_percentage := 10, ai_percentage := 90, verdict := Verdict.AiGenerated } := by
  unfold resultOfProb
  have h90 : round1 ((9 : ℚ) / 10 * 100) = 90 := by
    unfold round1
    norm_num
  rw [h90]
  have h10 : round1 ((100 : ℚ) - 90) = 10 := by
    unfold round1
    norm_num
  rw [h10]
  have hv : verdictOf (90 : ℚ) = Verdict.AiGenerated := by
    unfold verdictOf
    rw [if_pos (by norm_num)]
  rw [hv]

/-- Witness for C2 at a remote success with probability 9/10. -/
theorem analyze_verdict_consistent_witness :
    analyze (RemoteOutcome.success (9 / 10)) [] =
      Except.ok { human_percentage := 10, ai_percentage := 90, verdict := Verdict.AiGenerated } ∧
    ({ human_percentage := 10, ai_percentage := 90, verdict := Verdict.AiGenerated }
      : AnalysisResult).verdict = Verdict.AiGenerated := by
  have hok : analyze (RemoteOutcome.success (9 / 10)) [] =
      Except.ok { human_percentage := 10, ai_percentage := 90, verdict := Verdict.AiGenerated } := by
    show Except.ok (resultOfProb (9 / 10)) = _
    rw [resultOfProb_ninety]
  refine ⟨hok, ?_⟩
  exact (analyze_verdict_consistent (RemoteOutcome.success (9 / 10)) []
    { human_percentage := 10, ai_percentage := 90, verdict := Verdict.AiGenerated }
    hok).1 (by norm_num)

/-- On input within the bound, the fallback equation of `analyze`. -/
theorem analyze_failure_eq (t : List Char) (k : RemoteFailure)
    (h : t.length ≤ maxInputChars) :
    analyze (RemoteOutcome.failure k) t = Except.ok (heuristicAnalyze t) := by
  unfold analyze
  rw [if_neg (by omega)]

/-- C3: on the heuristic path the AI percentage is exactly the rounded
weighted combination 0.25*uniformity + 0.20*diversity + 0.30*phrases +
0.15*punctuation + 0.10*structure times 100, the human percentage is the
rounded complement, and the five weights add up to exactly 1. -/
theorem heuristic_combine_formula (t : List Char) (k : RemoteFailure)
    (r : AnalysisResult) (h : analyze (RemoteOutcome.failure k) t = Except.ok r) :
    r.ai_percentage = round1 ((25 / 100 * uniformityScore t + 20 / 100 * diversityScore t
        + 30 / 100 * phrasesScore t + 15 / 100 * punctuationScore t
        + 10 / 100 * structureScore t) * 100) ∧
    r.human_percentage = round1 (100 - r.ai_percentage) ∧
    wUniformity + wDiversity + wPhrases + wPunctuation + wStructure = 1 := by
  have hb : ¬ maxInputChars < t.length := by
    intro hb
    unfold analyze at h
    rw [if_pos hb] at h
    exact Except.noConfusion h
  have hr : r = heuristicAnalyze t := by
    unfold analyze at h
    rw [if_neg hb] at h
    exact (Except.ok.inj h).symm
  subst hr
  refine ⟨?_, rfl, by unfold wUniformity wDiversity wPhrases wPunctuation wStructure; norm_num⟩
  show round1 (aiScore t * 100) = _
  have harg : aiScore t = 25 / 100 * uniformityScore t + 20 / 100 * diversityScore t
      + 30 / 100 * phrasesScore t + 15 / 100 * punctuationScore t
      + 10 / 100 * structureScore t := by
    unfold aiScore combineScores wUniformity wDiversity wPhrases wPunctuation wStructure
    ring
  rw [harg]

/-- Witness for C3 at the empty text. -/
theorem heuristic_combine_formula_witness :
    (heuristicAnalyze []).ai_percentage =
      round1 ((25 / 100 * uniformityScore [] + 20 / 100 * diversityScore []
        + 30 / 100 * phrasesScore [] + 15 / 100 * punctuationScore []
        + 10 / 100 * structureScore []) * 100) ∧
    (heuristicAnalyze []).human_percentage = round1 (100 - (heuristicAnalyze []).ai_percentage) ∧
    wUniformity + wDiversity + wPhrases + wPunctuation + wStructure = 1 :=
  heuristic_combine_formula [] RemoteFailure.network (heuristicAnalyze [])
    (analyze_failure_eq [] RemoteFailure.network (by norm_num [maxInputChars]))

/-- C4: for every in-bound input and every remote failure mode, analyze falls
back to the heuristic path and returns a complete AnalysisResult; the remote
failure is never surfaced as an error. -/
theorem analyze_fallback_on_failure (t : List Char) (k : RemoteFailure)
    (h : t.length ≤ maxInputChars) :
    analyze (RemoteOutcome.failure k) t = Except.ok (heuristicAnalyze t) :=
  analyze_failure_eq t k h

/-- Evaluation of the heuristic path on the text "hi". -/
theorem heuristicAnalyze_hi :
    heuristicAnalyze "hi".data =
      { human_percentage := 127 / 2, ai_percentage := 73 / 2
      , verdict := Verdict.HumanWritten } := by
  have h1 : uniformityScore "hi".data = 1 / 2 := rfl
  have hw : lowerWords "hi".data = [['h', 'i']] := by decide
  have h2 : diversityScore "hi".data = 2 / 10 := by
    unfold diversityScore diversityRatio
    rw [hw]
    norm_num
  have h3 : phrasesScore "hi".data = 30 / 100 := rfl
  have hcount1 : countChar '!' "hi".data = 0 := by decide
  have hcount2 : countChar ',' "hi".data = 0 := by decide
  have hlen : ("hi".data).length = 2 := by decide
  have h4 : punctuationScore "hi".data = 1 / 2 := by
    unfold punctuationScore exclDensity commaDensity
    rw [hcount1, hcount2, hlen]
    norm_num
  have hwc : ((paragraphs "hi".data).map paragraphWordCount).sum = 1 := by decide
  have hplen : (paragraphs "hi".data).length = 1 := by decide
  have h5 : structureScore "hi".data = 35 / 100 := by
    unfold structureScore meanParagraphWords
    rw [hwc, hplen]
    norm_num
  have ha : aiScore "hi".data = 73 / 200 := by
    show combineScores (uniformityScore "hi".data) (diversityScore "hi".data)
        (phrasesScore "hi".data) (punctuationScore "hi".data) (structureScore "hi".data)
        = 73 / 200
    rw [h1, h2, h3, h4, h5]
    unfold combineScores wUniformity wDiversity wPhrases wPunctuation wStructure
    norm_num
  show resultOfProb (aiScore "hi".data) = _
  rw [ha]
  unfold resultOfProb
  have hai : round1 ((73 : ℚ) / 200 * 100) = 73 / 2 := by
    unfold round1
    norm_num
  rw [hai]
  have hhu : round1 ((100 : ℚ) - 73 / 2) = 127 / 2 := by
    unfold round1
    norm_num
  rw [hhu]
  have hv : verdictOf ((73 : ℚ) / 2) = Verdict.HumanWritten := by
    unfold verdictOf
    rw [if_neg (by norm_num), if_pos (by norm_num)]
  rw [hv]

/-- Witness for C4 at the text "hi" under a remote timeout. -/
theorem analyze_fallback_on_failure_witness :
    analyze (RemoteOutcome.failure RemoteFailure.timeout) "hi".data =
      Except.ok { human_percentage := 127 / 2, ai_percentage := 73 / 2
                , verdict := Verdict.HumanWritten } := by
  have h := analyze_fallback_on_failure "hi".data RemoteFailure.timeout
    (by rw [show ("hi".data).length = 2 from by decide]; norm_num [maxInputChars])
  rw [h, heuristicAnalyze_hi]

/-- C5: the phrases extractor counts distinct catalogue phrases matched and
maps the count through the step function — at least 3 gives 0.85, exactly 2
gives 0.70, exactly 1 gives 0.55, and 0 gives the strictly positive baseline
0.30; with exactly 2 matches the weighted contribution is 0.30*0.70 = 0.21. -/
theorem phrases_step_function (t : List Char) :
    (3 ≤ phraseMatchCount t → phrasesScore t = 85 / 100) ∧
    (phraseMatchCount t = 2 →
      phrasesScore t = 70 / 100 ∧ wPhrases * phrasesScore t = 21 / 100) ∧
    (phraseMatchCount t = 1 → phrasesScore t = 55 / 100) ∧
    (phraseMatchCount t = 0 → phrasesScore t = 30 / 100) ∧
    0 < phrasesScore t := by
  unfold phrasesScore
  refine ⟨fun h => by rw [if_pos h], fun h => ?_, fun h => ?_, fun h => ?_, ?_⟩
  · rw [if_neg (by omega), if_pos h]
    constructor
    · rfl
    · unfold wPhrases
      norm_num
  · rw [if_neg (by omega), if_neg (by omega), if_pos h]
  · rw [if_neg (by omega), if_neg (by omega), if_neg (by omega)]
  · split_ifs <;> norm_num

/-- Witness for C5 at a text containing exactly the two catalogue phrases
"leverage" and "utilize". -/
theorem phrases_step_function_witness :
    phraseMatchCount "We leverage and utilize tools daily.".data = 2 ∧
    phrasesScore "We leverage and utilize tools daily.".data = 70 / 100 ∧
    wPhrases * phrasesScore "We leverage and utilize tools daily.".data = 21 / 100 := by
  have hc : phraseMatchCount "We leverage and utilize tools daily.".data = 2 := by decide
  have h := (phrases_step_function "We leverage and utilize tools daily.".data).2.1 hc
  exact ⟨hc, h.1, h.2⟩

/-- C6: analyze fails only with the InputTooLarge kind and only when the text
exceeds the configured bound; every in-bound input, whatever the remote
outcome, yields an AnalysisResult. -/
theorem analyze_error_iff_too_large (remote : RemoteOutcome) (t : List Char) :
    (∀ e, analyze remote t = Except.error e →
      e = AnalyzeError.InputTooLarge ∧ maxInputChars < t.length) ∧
    (t.length ≤ maxInputChars → ∃ r, analyze remote t = Except.ok r) ∧
    (maxInputChars < t.length → analyze remote t = Except.error AnalyzeError.InputTooLarge) := by
  unfold analyze
  by_cases hb : maxInputChars < t.length
  · rw [if_pos hb]
    exact ⟨fun e _ => ⟨by cases e; rfl, hb⟩, fun hle => absurd hb (by omega), fun _ => rfl⟩
  · rw [if_neg hb]
    cases remote with
    | success p =>
      exact ⟨fun e he => absurd he (by simp), fun _ => ⟨_, rfl⟩, fun hgt => absurd hgt hb⟩
    | failure k =>
      exact ⟨fun e he => absurd he (by simp), fun _ => ⟨_, rfl⟩, fun hgt => absurd hgt hb⟩

/-- Witness for C6 at the empty text with absent remote credentials. -/
theorem analyze_error_iff_too_large_witness :
    ∃ r, analyze (RemoteOutcome.failure RemoteFailure.missingCredentials) [] = Except.ok r :=
  (analyze_error_iff_too_large (RemoteOutcome.failure RemoteFailure.missingCredentials)
    []).2.1 (by norm_num [maxInputChars])

/-- Step equation of the splitter worker on the empty list. -/
theorem chunksAux_nil {α : Type} (p : α → Bool) (acc : List α) :
    chunksAux p [] acc = if acc.isEmpty then [] else [acc.reverse] := rfl

/-- Step equation of the splitter worker on a cons cell. -/
theorem chunksAux_cons {α : Type} (p : α → Bool) (a : α) (rest acc : List α) :
    chunksAux p (a :: rest) acc =
      if p a then
        if acc.isEmpty then chunksAux p rest []
        else acc.reverse :: chunksAux p rest []
      else chunksAux p rest (a :: acc) := rfl

/-- Step equation of `splitAll` on a cons cell. -/
theorem splitAll_cons {α : Type} (p : α → Bool) (a : α) (rest : List α) :
    splitAll p (a :: rest) =
      if p a then [] :: splitAll p rest
      else
        match splitAll p rest with
        | [] => [[a]]
        | h :: t => (a :: h) :: t := rfl

/-- When every element is a separator, the splitter emits nothing beyond the
pending piece. -/
theorem chunksAux_all_sep {α : Type} (p : α → Bool) (l : List α)
    (h : ∀ a ∈ l, p a = true) : chunksAux p l [] = [] := by
  induction l with
  | nil => rfl
  | cons a rest ih =>
    rw [chunksAux_cons, if_pos (h a (List.mem_cons_self a rest)), if_pos List.isEmpty_nil]
    exact ih fun b hb => h b (List.mem_cons_of_mem a hb)

/-- Every element of a piece produced by the splitter worker comes from the
input or from the pending piece. -/
theorem mem_of_mem_chunksAux {α : Type} (p : α → Bool) :
    ∀ (l acc c : List α), c ∈ chunksAux p l acc → ∀ a ∈ c, a ∈ l ∨ a ∈ acc := by
  intro l
  induction l with
  | nil =>
    intro acc c hc a hac
    rw [chunksAux_nil] at hc
    by_cases he : acc.isEmpty
    · rw [if_pos he] at hc
      exact absurd hc (List.not_mem_nil c)
    · rw [if_neg he] at hc
      rcases List.mem_singleton.1 hc with rfl
      exact Or.inr (List.mem_reverse.1 hac)
  | cons x rest ih =>
    intro acc c hc a hac
    rw [chunksAux_cons] at hc
    by_cases hp : p x
    · rw [if_pos hp] at hc
      by_cases he : acc.isEmpty
      · rw [if_pos he] at hc
        rcases ih [] c hc a hac with h1 | h2
        · exact Or.inl (List.mem_cons_of_mem x h1)
        · exact absurd h2 (List.not_mem_nil a)
      · rw [if_neg he] at hc
        rcases List.mem_cons.1 hc with rfl | h2
        · exact Or.inr (List.mem_reverse.1 hac)
        · rcases ih [] c h2 a hac with h1 | h2
          · exact Or.inl (List.mem_cons_of_mem x h1)
          · exact absurd h2 (List.not_mem_nil a)
    · rw [if_neg hp] at hc
      rcases ih (x :: acc) c hc a hac with h1 | h2
      · exact Or.inl (List.mem_cons_of_mem x h1)
      · rcases List.mem_cons.1 h2 with rfl | h3
        · exact Or.inl (List.mem_cons_self a rest)
        · exact Or.inr h3

/-- Every element of a piece of `chunks` comes from the input. -/
theorem mem_of_mem_chunks {α : Type} (p : α → Bool) (l c : List α)
    (hc : c ∈ chunks p l) (a : α) (ha : a ∈ c) : a ∈ l := by
  rcases mem_of_mem_chunksAux p l [] c hc a ha with h | h
  · exact h
  · exact absurd h (List.not_mem_nil a)

/-- Every element of a piece of `splitAll` comes from the input and is not a
separator. -/
theorem mem_of_mem_splitAll {α : Type} (p : α → Bool) :
    ∀ (l c : List α), c ∈ splitAll p l → ∀ a ∈ c, a ∈ l ∧ p a = false := by
  intro l
  induction l with
  | nil =>
    intro c hc a hac
    rcases List.mem_singleton.1 hc with rfl
    exact absurd hac (List.not_mem_nil a)
  | cons x rest ih =>
    intro c hc a hac
    rw [splitAll_cons] at hc
    by_cases hp : p x
    · rw [if_pos hp] at hc
      rcases List.mem_cons.1 hc with rfl | h2
      · exact absurd hac (List.not_mem_nil a)
      · obtain ⟨h3, h4⟩ := ih c h2 a hac
        exact ⟨List.mem_cons_of_mem x h3, h4⟩
    · rw [if_neg hp] at hc
      cases hsp : splitAll p rest with
      | nil =>
        rw [hsp] at hc
        rcases List.mem_singleton.1 hc with rfl
        rcases List.mem_singleton.1 hac with rfl
        exact ⟨List.mem_cons_self a rest, Bool.eq_false_iff.2 hp⟩
      | cons hd tl =>
        rw [hsp] at hc
        rcases List.mem_cons.1 hc with rfl | h2
        · rcases List.mem_cons.1 hac with rfl | h4
          · exact ⟨List.mem_cons_self a rest, Bool.eq_false_iff.2 hp⟩
          · obtain ⟨h5, h6⟩ := ih hd (by rw [hsp]; exact List.mem_cons_self hd tl) a h4
            exact ⟨List.mem_cons_of_mem x h5, h6⟩
        · obtain ⟨h5, h6⟩ := ih c (by rw [hsp]; exact List.mem_cons_of_mem hd h2) a hac
          exact ⟨List.mem_cons_of_mem x h5, h6⟩

/-- The lowercase image of a whitespace character is not alphanumeric. -/
theorem toLower_ws_not_alphanum (c : Char) (h : c.isWhitespace = true) :
    (Char.toLower c).isAlphanum = false := by
  have h4 : ((c = ' ' ∨ c = '\t') ∨ c = '\x0d') ∨ c = '\n' := by
    simpa [Char.isWhitespace, Bool.or_eq_true, decide_eq_true_eq] using h
  rcases h4 with ((h | h) | h) | h <;> subst h <;> decide

/-- Trimming a whitespace-only character list leaves nothing. -/
theorem trimChars_all_ws (l : List Char) (h : ∀ a ∈ l, a.isWhitespace = true) :
    trimChars l = [] := by
  unfold trimChars
  have h1 : l.dropWhile Char.isWhitespace = [] := List.dropWhile_eq_nil_iff.2 h
  rw [h1]
  rfl

/-- All tokenizations of a whitespace-only text are empty. -/
theorem tokenize_all_ws (t : List Char) (hws : ∀ c ∈ t, c.isWhitespace = true) :
    lowerWords t = [] ∧ sentences t = [] ∧ paragraphs t = [] := by
  refine ⟨?_, ?_, ?_⟩
  · unfold lowerWords chunks
    apply chunksAux_all_sep
    intro a ha
    obtain ⟨c, hc, rfl⟩ := List.mem_map.1 ha
    rw [Bool.not_eq_true']
    exact toLower_ws_not_alphanum c (hws c hc)
  · unfold sentences
    apply List.filter_eq_nil_iff.2
    intro s hs
    obtain ⟨c0, hc0, rfl⟩ := List.mem_map.1 hs
    have hall : ∀ a ∈ c0, a.isWhitespace = true := fun a ha =>
      hws a (mem_of_mem_chunks isSentenceEnd t c0 hc0 a ha)
    rw [trimChars_all_ws c0 hall]
    decide
  · unfold paragraphs chunks
    apply chunksAux_all_sep
    intro line hline
    unfold isBlankLine
    apply List.all_eq_true.2
    intro a ha
    exact hws a (mem_of_mem_splitAll (fun c => c = '\n') t line hline a ha).1

/-- C7: for every in-bound input, including empty and whitespace-only ones,
the analysis is total: whitespace-only text tokenizes to empty sentence, word
and paragraph sequences, the three signals that would otherwise divide by a
zero sentence, word or paragraph count take the neutral default 1/2, the
punctuation signal is neutral on the empty text, and analyze still returns a
result. -/
theorem whitespace_input_neutral (t : List Char)
    (hws : ∀ c ∈ t, c.isWhitespace = true) (hlen : t.length ≤ maxInputChars) :
    lowerWords t = [] ∧ sentences t = [] ∧ paragraphs t = [] ∧
    uniformityScore t = 1 / 2 ∧ diversityScore t = 1 / 2 ∧ structureScore t = 1 / 2 ∧
    (t = [] → punctuationScore t = 1 / 2) ∧
    (∀ k, analyze (RemoteOutcome.failure k) t = Except.ok (heuristicAnalyze t)) := by
  obtain ⟨hwords, hsent, hpar⟩ := tokenize_all_ws t hws
  refine ⟨hwords, hsent, hpar, ?_, ?_, ?_, ?_, ?_⟩
  · unfold uniformityScore sentenceWordCounts
    rw [hsent]
    rfl
  · unfold diversityScore
    rw [hwords]
    rfl
  · unfold structureScore
    rw [hpar]
    rfl
  · intro ht
    subst ht
    rfl
  · intro k
    unfold analyze
    rw [if_neg (by omega)]

/-- Witness for C7 at the one-space text. -/
theorem whitespace_input_neutral_witness :
    sentences [' '] = [] ∧ uniformityScore [' '] = 1 / 2 ∧
    diversityScore [' '] = 1 / 2 ∧ structureScore [' '] = 1 / 2 := by
  have h := whitespace_input_neutral [' '] (by decide) (by norm_num [maxInputChars])
  exact ⟨h.2.1, h.2.2.2.1, h.2.2.2.2.1, h.2.2.2.2.2.1⟩

/-- C8: the heuristic path is a pure function of the text: two calls on
identical text with the remote classifier unavailable give identical
results, and the result does not depend on which failure mode made the
remote classifier unavailable. -/
theorem analyze_heuristic_pure (t : List Char) (k1 k2 : RemoteFailure) :
    (analyzeTwice k1 t).1 = (analyzeTwice k1 t).2 ∧
    analyze (RemoteOutcome.failure k1) t = analyze (RemoteOutcome.failure k2) t :=
  ⟨rfl, rfl⟩

/-- The character list `bigContent` has no surrounding whitespace to trim. -/
theorem trimChars_bigContent : trimChars bigContent = bigContent := by
  have hdrop : (List.replicate 50001 'a').dropWhile Char.isWhitespace
      = List.replicate 50001 'a' := by
    rw [List.replicate_succ, List.dropWhile_cons, if_neg (by decide), ← List.replicate_succ]
  unfold trimChars bigContent
  rw [hdrop, List.reverse_replicate, hdrop, List.reverse_replicate]

/-- C9: the 50000-character bound holds for typed input through the textarea
maxLength attribute, but the content of an uploaded file reaches the text state
unchecked, so an uploaded 50001-character file is submitted in full to the
analyze endpoint. -/
theorem upload_bypasses_textarea_bound :
    (∀ s v, ((handleTextInput s v).text).length ≤ textareaMaxLength) ∧
    (handleFileUploadLoad initialState "big.txt".data bigContent).text = bigContent ∧
    handleAnalyze (handleFileUploadLoad initialState "big.txt".data bigContent) =
      some { text := bigContent } ∧
    textareaMaxLength < bigContent.length := by
  refine ⟨?_, rfl, ?_, ?_⟩
  · intro s v
    show (v.take textareaMaxLength).length ≤ textareaMaxLength
    rw [List.length_take]
    exact min_le_left _ _
  · show (if (trimChars bigContent).isEmpty then none
        else some { text := bigContent } : Option AnalyzeRequest) = some { text := bigContent }
    rw [trimChars_bigContent]
    rw [if_neg (by rw [show bigContent = 'a' :: List.replicate 50000 'a' from
      by unfold bigContent; rw [List.replicate_succ]]; decide)]
  · show textareaMaxLength < bigContent.length
    unfold textareaMaxLength bigContent
    rw [List.length_replicate]
    norm_num

/-- C10: the frontend never issues an analyze request for empty or
whitespace-only text: handleAnalyze returns no request whenever the trimmed
text is empty — in particular for whitespace-only text — and the Analyze
button is disabled under the same condition; any issued request carries text
that does not trim to empty. -/
theorem no_blank_analyze_request (s : FrontendState) :
    ((trimChars s.text).isEmpty = true →
      handleAnalyze s = none ∧ analyzeButtonDisabled s = true) ∧
    ((∀ c ∈ s.text, c.isWhitespace = true) → handleAnalyze s = none) ∧
    (∀ req, handleAnalyze s = some req → (trimChars req.text).isEmpty = false) := by
  refine ⟨?_, ?_, ?_⟩
  · intro h
    constructor
    · unfold handleAnalyze
      rw [if_pos h]
    · unfold analyzeButtonDisabled
      rw [h]
      rfl
  · intro h
    unfold handleAnalyze
    rw [trimChars_all_ws s.text h]
    rfl
  · intro req hreq
    unfold handleAnalyze at hreq
    by_cases he : (trimChars s.text).isEmpty
    · rw [if_pos he] at hreq
      exact Option.noConfusion hreq
    · rw [if_neg he] at hreq
      have hr : ({ text := s.text } : AnalyzeRequest) = req := Option.some.inj hreq
      rw [← hr]
      exact Bool.eq_false_iff.2 he

/-- Witness for C10 at the initial state. -/
theorem no_blank_analyze_request_witness :
    handleAnalyze initialState = none ∧ analyzeButtonDisabled initialState = true :=
  (no_blank_analyze_request initialState).1 (by decide)

end Brbrbr
